import Mathlib

/-! Shallow embedding of the cohort retention and time-series aggregation
engine of `dashboard.py` (bloom-dashboard).

Dates are modelled as a month index `m` (months since January 2024, an
integer) together with a zero-based day of month `d`.  Day 0 of month 0 is
2024-01-01, which is a Monday, so weekday arithmetic agrees with Python's
`date.weekday` (Monday = 0).  Month lengths follow the Gregorian calendar
with leap years.  Numeric results (`retention_percent`) are modelled over
`ℚ`, with Python's `round(x, 1)` rendered as exact round-half-to-even at
one decimal.  The database is an abstract in-memory event log mirroring the
tables the SQL queries touch. -/

structure Date where
  m : ℤ
  d : ℕ
deriving DecidableEq

def isLeap (y : ℤ) : Bool := (y % 4 == 0 && y % 100 != 0) || (y % 400 == 0)

def yearOf (m : ℤ) : ℤ := 2024 + m.fdiv 12

def monthIdx (m : ℤ) : ℕ := (m % 12).toNat

def monthLen (m : ℤ) : ℕ :=
  match monthIdx m with
  | 0 => 31
  | 1 => if isLeap (yearOf m) then 29 else 28
  | 2 => 31
  | 3 => 30
  | 4 => 31
  | 5 => 30
  | 6 => 31
  | 7 => 31
  | 8 => 30
  | 9 => 31
  | 10 => 30
  | _ => 31

def monthStartN : ℕ → ℤ
  | 0 => 0
  | n + 1 => monthStartN n + (monthLen (n : ℤ) : ℤ)

def monthStartNegN : ℕ → ℤ
  | 0 => -(monthLen (-1) : ℤ)
  | k + 1 => monthStartNegN k - (monthLen (-(k + 2 : ℤ)) : ℤ)

/-- Day number (days since 2024-01-01) of the first day of month `m`. -/
def monthStart : ℤ → ℤ
  | .ofNat n => monthStartN n
  | .negSucc k => monthStartNegN k

def toDay (x : Date) : ℤ := monthStart x.m + x.d

/-- Python `date.weekday`: Monday = 0 (day 0 = 2024-01-01 is a Monday). -/
def weekday (x : Date) : ℕ := (toDay x % 7).toNat

def dateLe (a b : Date) : Bool := decide (a.m < b.m ∨ (a.m = b.m ∧ a.d ≤ b.d))

def dateLt (a b : Date) : Bool := decide (a.m < b.m ∨ (a.m = b.m ∧ a.d < b.d))

/-- Python's binary `min` on dates. -/
def dateMin (a b : Date) : Date := if dateLe a b then a else b

/-- A `Date` value that denotes an actual calendar day. -/
def validDate (x : Date) : Prop := x.d < monthLen x.m

def succDay (x : Date) : Date :=
  if x.d + 1 < monthLen x.m then ⟨x.m, x.d + 1⟩ else ⟨x.m + 1, 0⟩

def predDay (x : Date) : Date :=
  if 0 < x.d then ⟨x.m, x.d - 1⟩ else ⟨x.m - 1, monthLen (x.m - 1) - 1⟩

def addDaysNat : Date → ℕ → Date
  | x, 0 => x
  | x, n + 1 => addDaysNat (succDay x) n

def subDaysNat : Date → ℕ → Date
  | x, 0 => x
  | x, n + 1 => subDaysNat (predDay x) n

/-- Python `date + timedelta(days = k)` for an integer `k`. -/
def addDays (x : Date) : ℤ → Date
  | .ofNat n => addDaysNat x n
  | .negSucc n => subDaysNat x (n + 1)

/-- Python `date + relativedelta(months = k)`: same day of month, clamped to
the target month's length. -/
def addMonths (x : Date) (k : ℤ) : Date :=
  ⟨x.m + k, min x.d (monthLen (x.m + k) - 1)⟩

def pad2 (n : ℕ) : String := if n < 10 then "0" ++ toString n else toString n

/-- Python `date.isoformat()`. -/
def isoDate (x : Date) : String :=
  toString (yearOf x.m) ++ "-" ++ pad2 (monthIdx x.m + 1) ++ "-" ++ pad2 (x.d + 1)

/-- Python `date.strftime("%d.%m")`. -/
def ddmm (x : Date) : String := pad2 (x.d + 1) ++ "." ++ pad2 (monthIdx x.m + 1)

def monthAbbrev : ℕ → String
  | 0 => "Jan" | 1 => "Feb" | 2 => "Mar" | 3 => "Apr" | 4 => "May" | 5 => "Jun"
  | 6 => "Jul" | 7 => "Aug" | 8 => "Sep" | 9 => "Oct" | 10 => "Nov" | _ => "Dec"

/-- Python `date.strftime("%b %Y")`. -/
def monthLabel (x : Date) : String :=
  monthAbbrev (monthIdx x.m) ++ " " ++ toString (yearOf x.m)

/-! The abstract event log: one structure per table touched by the SQL in
`dashboard.py`, with exactly the columns the queries read. -/

structure User where
  user_id : ℕ
  created_at : Date
  last_activity : Option Date
deriving DecidableEq

structure Plant where
  id : ℕ
  user_id : ℕ
  saved_date : Date
deriving DecidableEq

structure CareEvent where
  plant_id : ℕ
  action_type : String
  action_date : Date
deriving DecidableEq

structure QAEvent where
  user_id : ℕ
  question_date : Date
deriving DecidableEq

structure GrowingPlant where
  user_id : ℕ
  created_at : Date
deriving DecidableEq

structure FeedbackRow where
  user_id : ℕ
  created_at : Date
deriving DecidableEq

structure DB where
  users : List User
  plants : List Plant
  care_history : List CareEvent
  plant_qa_history : List QAEvent
  growing_plants : List GrowingPlant
  feedback : List FeedbackRow
deriving DecidableEq

def inRange (x lo hi : Date) : Bool := dateLe lo x && dateLe x hi

/-- Cohort membership: `u.created_at::date >= cs AND u.created_at::date <= ce`. -/
def inCohort (u : User) (cs ce : Date) : Bool := inRange u.created_at cs ce

/-- Test `u.last_activity IS NOT NULL AND u.last_activity::date` in `[lo, hi]`. -/
def lastActivityIn (u : User) (lo hi : Date) : Bool :=
  match u.last_activity with
  | some la => inRange la lo hi
  | none => false

/-- The `retention_type == "classic"` branch of `get_returned_users`:
`COUNT(DISTINCT u.user_id)` of cohort members whose `last_activity` falls in
the target window `[ts, te]`. -/
def classicReturned (db : DB) (cs ce ts te : Date) : ℕ :=
  (((db.users.filter (fun u => inCohort u cs ce && lastActivityIn u ts te)).map
      (fun u => u.user_id)).dedup).length

/-- First query of the `functional` branch: `SELECT DISTINCT p.user_id FROM
care_history ch JOIN plants p ON ch.plant_id = p.id JOIN users u ON
p.user_id = u.user_id` with the cohort, action and target-window filters. -/
def wateredQuery (db : DB) (cs ce ts te : Date) : List ℕ :=
  ((db.care_history.flatMap fun ch =>
      db.plants.flatMap fun p =>
        db.users.filterMap fun u =>
          if ch.plant_id == p.id && p.user_id == u.user_id && inCohort u cs ce &&
              ch.action_type == "watered" && inRange ch.action_date ts te then
            some p.user_id
          else none)).dedup

/-- Second query of the `functional` branch: `SELECT DISTINCT p.user_id FROM
plants p JOIN users u` with the cohort filter and `saved_date` in the target
window. -/
def addedPlantQuery (db : DB) (cs ce ts te : Date) : List ℕ :=
  ((db.plants.flatMap fun p =>
      db.users.filterMap fun u =>
        if p.user_id == u.user_id && inCohort u cs ce && inRange p.saved_date ts te then
          some p.user_id
        else none)).dedup

/-- Third query of the `functional` branch: `SELECT DISTINCT qa.user_id FROM
plant_qa_history qa JOIN users u` with the cohort filter and `question_date`
in the target window. -/
def askedQuestionQuery (db : DB) (cs ce ts te : Date) : List ℕ :=
  ((db.plant_qa_history.flatMap fun qa =>
      db.users.filterMap fun u =>
        if qa.user_id == u.user_id && inCohort u cs ce && inRange qa.question_date ts te then
          some qa.user_id
        else none)).dedup

/-- The `functional` branch: `functional_users = set(); update` with each of
the three query results; the returned count is `len(functional_users)`. -/
def functionalReturned (db : DB) (cs ce ts te : Date) : ℕ :=
  ((wateredQuery db cs ce ts te ++ addedPlantQuery db cs ce ts te ++
      askedQuestionQuery db cs ce ts te).toFinset).card

/-- The `rolling` branch: `rolling_start = cohort_end + timedelta(days=1)`,
`rolling_end = target_end`, then the same `last_activity` count as classic
over `[rolling_start, rolling_end]`.  The target-window start is unused. -/
def rollingReturned (db : DB) (cs ce : Date) (_ts : Date) (te : Date) : ℕ :=
  (((db.users.filter (fun u =>
        inCohort u cs ce && lastActivityIn u (addDays ce 1) te)).map
      (fun u => u.user_id)).dedup).length

/-- The helper `get_returned_users(conn, retention_type, cohort_start,
cohort_end, target_start, target_end, granularity)`.  The granularity
argument is accepted and ignored, as in the source.  The `retention_type`
regex of the endpoint restricts the first argument to the three branches. -/
def get_returned_users (db : DB) (retention_type : String) (cs ce ts te : Date)
    (_granularity : String) : ℕ :=
  if retention_type == "classic" then classicReturned db cs ce ts te
  else if retention_type == "functional" then functionalReturned db cs ce ts te
  else if retention_type == "rolling" then rollingReturned db cs ce ts te
  else 0

def ratFloor (q : ℚ) : ℤ := q.num.fdiv q.den

/-- Python `round` to an integer: nearest, ties to even. -/
def roundHalfEven (q : ℚ) : ℤ :=
  let f := ratFloor q
  let r := q - (f : ℚ)
  if r < 1 / 2 then f
  else if 1 / 2 < r then f + 1
  else if f % 2 = 0 then f else f + 1

/-- Python `round(q, 1)` over exact rationals. -/
def pyRound1 (q : ℚ) : ℚ := (roundHalfEven (q * 10) : ℚ) / 10

/-- The expression `round((returned / cohort_size * 100), 1) if cohort_size > 0
else 0` from `get_retention_flexible_stats`. -/
def retentionPercent (cohort_size returned : ℕ) : ℚ :=
  if 0 < cohort_size then pyRound1 ((returned : ℚ) / (cohort_size : ℚ) * 100) else 0

structure CohortRecord where
  cohort_label : String
  target_label : String
  registered : ℕ
  returned : ℕ
  retention_percent : ℚ
deriving DecidableEq

/-- `SELECT COUNT(*) FROM users WHERE created_at::date = $1`. -/
def countRegisteredOn (db : DB) (day : Date) : ℕ :=
  (db.users.filter (fun u => u.created_at == day)).length

/-- `SELECT COUNT(*) FROM users WHERE created_at::date >= $1 AND <= $2`. -/
def countRegisteredBetween (db : DB) (lo hi : Date) : ℕ :=
  (db.users.filter (fun u => inRange u.created_at lo hi)).length

/-- One iteration of the `granularity == "day"` loop of
`get_retention_flexible_stats`: `continue` on an empty cohort becomes
`none`. -/
def dayCohortRecord (db : DB) (retention_type : String) (period : ℕ) (nowD : Date)
    (i : ℕ) : Option CohortRecord :=
  let cohort_date := addDays nowD (-((i : ℤ) + (period : ℤ)))
  let target_date := addDays cohort_date (period : ℤ)
  let cohort_size := countRegisteredOn db cohort_date
  if cohort_size = 0 then none
  else
    let returned := get_returned_users db retention_type cohort_date cohort_date
      target_date target_date "day"
    some ⟨isoDate cohort_date, isoDate target_date, cohort_size, returned,
      retentionPercent cohort_size returned⟩

/-- One iteration of the `granularity == "week"` loop: the anchor is shifted
back `i + period` weeks and re-aligned to Monday via `weekday`. -/
def weekCohortRecord (db : DB) (retention_type : String) (period : ℕ) (nowD : Date)
    (i : ℕ) : Option CohortRecord :=
  let cohort_start0 := addDays nowD (-(7 * ((i : ℤ) + (period : ℤ))))
  let cohort_start := addDays cohort_start0 (-(weekday cohort_start0 : ℤ))
  let cohort_end := addDays cohort_start 6
  let target_start := addDays cohort_start (7 * (period : ℤ))
  let target_end := addDays target_start 6
  let cohort_size := countRegisteredBetween db cohort_start cohort_end
  if cohort_size = 0 then none
  else
    let returned := get_returned_users db retention_type cohort_start cohort_end
      target_start target_end "week"
    some ⟨ddmm cohort_start ++ "-" ++ ddmm cohort_end,
      ddmm target_start ++ "-" ++ ddmm target_end, cohort_size, returned,
      retentionPercent cohort_size returned⟩

/-- One iteration of the `granularity == "month"` loop: the anchor is shifted
back `i + period` months, snapped to the first of the month, and the month
end is `start + relativedelta(months=1) - timedelta(days=1)`. -/
def monthCohortRecord (db : DB) (retention_type : String) (period : ℕ) (nowD : Date)
    (i : ℕ) : Option CohortRecord :=
  let cohort_date := addMonths nowD (-((i : ℤ) + (period : ℤ)))
  let cohort_start : Date := ⟨cohort_date.m, 0⟩
  let cohort_end := addDays (addMonths cohort_start 1) (-1)
  let target_start := addMonths cohort_start (period : ℤ)
  let target_end := addDays (addMonths target_start 1) (-1)
  let cohort_size := countRegisteredBetween db cohort_start cohort_end
  if cohort_size = 0 then none
  else
    let returned := get_returned_users db retention_type cohort_start cohort_end
      target_start target_end "month"
    some ⟨monthLabel cohort_start, monthLabel target_start, cohort_size, returned,
      retentionPercent cohort_size returned⟩

structure RetentionResponse where
  retention_type : String
  granularity : String
  period : ℕ
  cohorts : List CohortRecord
deriving DecidableEq

/-- The `cohorts` list assembled by `get_retention_flexible_stats`: each
granularity branch scans its capped range of cohort indices; an unmatched
granularity leaves the list empty (in the source the FastAPI regex rejects
it upstream). -/
def flexibleCohorts (db : DB) (retention_type granularity : String)
    (period : ℕ) (nowD : Date) : List CohortRecord :=
  if granularity == "day" then
    (List.range (min 365 (period * 5))).filterMap
      (dayCohortRecord db retention_type period nowD)
  else if granularity == "week" then
    (List.range (min 52 (period * 5))).filterMap
      (weekCohortRecord db retention_type period nowD)
  else if granularity == "month" then
    (List.range (min 12 (period * 3))).filterMap
      (monthCohortRecord db retention_type period nowD)
  else []

/-- The endpoint `get_retention_flexible_stats`, as a pure function of the
event log and the current date. -/
def get_retention_flexible_stats (db : DB) (retention_type granularity : String)
    (period : ℕ) (nowD : Date) : RetentionResponse :=
  { retention_type := retention_type
    granularity := granularity
    period := period
    cohorts := flexibleCohorts db retention_type granularity period nowD }

/-- An event log with no rows at all. -/
def emptyDB : DB := ⟨[], [], [], [], [], []⟩

/-- The scenario cohort of the spec: ten users registered on day D
(2024-01-01); four of them have `last_activity` on day D+7. -/
def scenarioDB : DB :=
  { users :=
      [⟨1, ⟨0, 0⟩, some ⟨0, 7⟩⟩, ⟨2, ⟨0, 0⟩, some ⟨0, 7⟩⟩,
       ⟨3, ⟨0, 0⟩, some ⟨0, 7⟩⟩, ⟨4, ⟨0, 0⟩, some ⟨0, 7⟩⟩,
       ⟨5, ⟨0, 0⟩, none⟩, ⟨6, ⟨0, 0⟩, none⟩, ⟨7, ⟨0, 0⟩, none⟩,
       ⟨8, ⟨0, 0⟩, none⟩, ⟨9, ⟨0, 0⟩, none⟩, ⟨10, ⟨0, 0⟩, none⟩]
    plants := []
    care_history := []
    plant_qa_history := []
    growing_plants := []
    feedback := [] }

/-! The time-series aggregator `get_timeseries_stats`.  Its three `while`
loops are embedded as fuel-based recursions; the top-level definitions pass
a fuel that is provably sufficient (one more than the number of days,
respectively months, in the requested range). -/

structure TSPoint where
  date : String
  label : String
  new_users : ℕ
  watered : ℕ
  added_plants : ℕ
  added_growing : ℕ
  asked_question : ℕ
  left_feedback : ℕ
  opened_bot : ℕ
deriving DecidableEq

/-- The body of the `granularity == "day"` loop at `current_date = cur`:
the seven single-day counting queries. -/
def mkDayPoint (db : DB) (cur : Date) : TSPoint :=
  { date := isoDate cur
    label := ddmm cur
    new_users := (db.users.filter (fun u => u.created_at == cur)).length
    watered := ((db.care_history.flatMap fun ch =>
        db.plants.filterMap fun p =>
          if p.id == ch.plant_id && ch.action_type == "watered" &&
              ch.action_date == cur then some p.user_id else none).dedup).length
    added_plants := ((db.plants.filterMap fun p =>
        if p.saved_date == cur then some p.user_id else none).dedup).length
    added_growing := ((db.growing_plants.filterMap fun g =>
        if g.created_at == cur then some g.user_id else none).dedup).length
    asked_question := ((db.plant_qa_history.filterMap fun qa =>
        if qa.question_date == cur then some qa.user_id else none).dedup).length
    left_feedback := ((db.feedback.filterMap fun fb =>
        if fb.created_at == cur then some fb.user_id else none).dedup).length
    opened_bot := (db.users.filter (fun u => u.last_activity == some cur)).length }

/-- The body of the `granularity == "week"` loop on the window
`w = (current_date, week_end)`: the seven range-counting queries. -/
def mkWeekPoint (db : DB) (w : Date × Date) : TSPoint :=
  { date := isoDate w.1
    label := ddmm w.1 ++ "-" ++ ddmm w.2
    new_users := countRegisteredBetween db w.1 w.2
    watered := ((db.care_history.flatMap fun ch =>
        db.plants.filterMap fun p =>
          if p.id == ch.plant_id && ch.action_type == "watered" &&
              inRange ch.action_date w.1 w.2 then some p.user_id else none).dedup).length
    added_plants := ((db.plants.filterMap fun p =>
        if inRange p.saved_date w.1 w.2 then some p.user_id else none).dedup).length
    added_growing := ((db.growing_plants.filterMap fun g =>
        if inRange g.created_at w.1 w.2 then some g.user_id else none).dedup).length
    asked_question := ((db.plant_qa_history.filterMap fun qa =>
        if inRange qa.question_date w.1 w.2 then some qa.user_id else none).dedup).length
    left_feedback := ((db.feedback.filterMap fun fb =>
        if inRange fb.created_at w.1 w.2 then some fb.user_id else none).dedup).length
    opened_bot := ((db.users.filterMap fun u =>
        if lastActivityIn u w.1 w.2 then some u.user_id else none).dedup).length }

/-- The body of the `granularity == "month"` loop on the window
`w = (current_date, month_end)`; the queries coincide with the week body,
only the label format differs. -/
def mkMonthPoint (db : DB) (w : Date × Date) : TSPoint :=
  { mkWeekPoint db w with date := isoDate w.1, label := monthLabel w.1 }

/-- Dates visited by the `day` loop: emit `cur` and step one day while
`cur <= to_date`. -/
def tsDayDatesLoop (toD : Date) : Date → ℕ → List Date
  | _, 0 => []
  | cur, fuel + 1 =>
    if dateLe cur toD then cur :: tsDayDatesLoop toD (addDays cur 1) fuel else []

/-- Fuel bound: one more than the number of days from `a` to `b`. -/
def tsFuel (a b : Date) : ℕ := (toDay b + 1 - toDay a).toNat + 1

def tsDayDates (fromD toD : Date) : List Date :=
  tsDayDatesLoop toD fromD (tsFuel fromD toD)

def tsDayPoints (db : DB) (fromD toD : Date) : List TSPoint :=
  (tsDayDates fromD toD).map (mkDayPoint db)

/-- Windows visited by the `week` loop: `week_end = min(cur + 6 days, to_date)`
and the step is seven days. -/
def tsWeekWindowsLoop (toD : Date) : Date → ℕ → List (Date × Date)
  | _, 0 => []
  | cur, fuel + 1 =>
    if dateLe cur toD then
      (cur, dateMin (addDays cur 6) toD) :: tsWeekWindowsLoop toD (addDays cur 7) fuel
    else []

def tsWeekWindows (fromD toD : Date) : List (Date × Date) :=
  tsWeekWindowsLoop toD fromD (tsFuel fromD toD)

def tsWeekPoints (db : DB) (fromD toD : Date) : List TSPoint :=
  (tsWeekWindows fromD toD).map (mkWeekPoint db)

/-- Nominal month end used by the `month` loop:
`cur + relativedelta(months=1) - timedelta(days=1)`. -/
def monthEndOf (cur : Date) : Date := addDays (addMonths cur 1) (-1)

/-- Windows visited by the `month` loop: the end is the nominal month end,
overwritten by `to_date` when it overshoots, and the step is one month. -/
def tsMonthWindowsLoop (toD : Date) : Date → ℕ → List (Date × Date)
  | _, 0 => []
  | cur, fuel + 1 =>
    if dateLe cur toD then
      (cur, if dateLt toD (monthEndOf cur) then toD else monthEndOf cur) ::
        tsMonthWindowsLoop toD (addMonths cur 1) fuel
    else []

/-- Fuel bound for the month loop: one more than the month distance. -/
def monthFuel (a b : Date) : ℕ := (b.m + 1 - a.m).toNat + 1

/-- The month loop starts at `from_date.replace(day=1)`. -/
def tsMonthWindows (fromD toD : Date) : List (Date × Date) :=
  tsMonthWindowsLoop toD ⟨fromD.m, 0⟩ (monthFuel fromD toD)

def tsMonthPoints (db : DB) (fromD toD : Date) : List TSPoint :=
  (tsMonthWindows fromD toD).map (mkMonthPoint db)

/-- Python exceptions that can escape the `try` body of
`get_timeseries_stats`: `ValueError` from date parsing, and
`fastapi.HTTPException` (which is itself a subclass of `Exception`). -/
inductive PyExc where
  | valueError (msg : String)
  | httpExc (status : ℕ) (detail : String)
deriving DecidableEq

/-- Python `str(e)`; for `HTTPException`, starlette renders
`"{status_code}: {detail}"`. -/
def pyStr : PyExc → String
  | .valueError m => m
  | .httpExc s d => toString s ++ ": " ++ d

structure HTTPErrorResp where
  status : ℕ
  detail : String
deriving DecidableEq

structure TSResponse where
  granularity : String
  date_from : Date
  date_to : Date
  data : List TSPoint
deriving DecidableEq

/-- The `try` body of `get_timeseries_stats` (dates already parsed): the
range check `if from_date > to_date` raises `HTTPException(400, ...)` before
any database access, then the granularity branches build the data points. -/
def timeseriesBody (db : DB) (granularity : String) (fromD toD : Date) :
    Except PyExc TSResponse :=
  if dateLt toD fromD then
    Except.error (PyExc.httpExc 400 "date_from must be before date_to")
  else
    Except.ok
      { granularity := granularity
        date_from := fromD
        date_to := toD
        data :=
          if granularity == "day" then tsDayPoints db fromD toD
          else if granularity == "week" then tsWeekPoints db fromD toD
          else if granularity == "month" then tsMonthPoints db fromD toD
          else [] }

/-- The whole endpoint with its handler clauses: `except ValueError` maps to
a 400 response, and the trailing `except Exception` catches everything else,
including the `HTTPException` raised by the body's own range check, and
re-raises it as `HTTPException(500, str(e))`. -/
def get_timeseries_stats (db : DB) (granularity : String) (fromD toD : Date) :
    Except HTTPErrorResp TSResponse :=
  match timeseriesBody db granularity fromD toD with
  | Except.ok r => Except.ok r
  | Except.error (PyExc.valueError m) =>
    Except.error ⟨400, "Invalid date format: " ++ m⟩
  | Except.error e => Except.error ⟨500, pyStr e⟩

/-! Basic facts about the date model. -/

lemma dateLe_iff {a b : Date} :
    dateLe a b = true ↔ (a.m < b.m ∨ (a.m = b.m ∧ a.d ≤ b.d)) := by
  simp [dateLe]

lemma dateLt_iff {a b : Date} :
    dateLt a b = true ↔ (a.m < b.m ∨ (a.m = b.m ∧ a.d < b.d)) := by
  simp [dateLt]

lemma dateLe_refl (a : Date) : dateLe a a = true := by simp [dateLe]

lemma dateLe_trans {a b c : Date} (h1 : dateLe a b = true)
    (h2 : dateLe b c = true) : dateLe a c = true := by
  rw [dateLe_iff] at *
  omega

lemma dateLe_of_dateLt {a b : Date} (h : dateLt a b = true) : dateLe a b = true := by
  rw [dateLt_iff] at h
  rw [dateLe_iff]
  omega

lemma dateLe_of_not_dateLt {a b : Date} (h : dateLt a b = false) :
    dateLe b a = true := by
  have h' : ¬ dateLt a b = true := by simp [h]
  rw [dateLt_iff] at h'
  rw [dateLe_iff]
  omega

lemma dateMin_le_right (a b : Date) : dateLe (dateMin a b) b = true := by
  unfold dateMin
  split
  · assumption
  · exact dateLe_refl b

lemma monthLen_pos (m : ℤ) : 0 < monthLen m := by
  unfold monthLen
  split <;> first | omega | (split_ifs <;> omega)

lemma dateLt_succDay (x : Date) : dateLt x (succDay x) = true := by
  unfold succDay
  split <;> (rw [dateLt_iff]; simp)

lemma dateLe_succDay (x : Date) : dateLe x (succDay x) = true :=
  dateLe_of_dateLt (dateLt_succDay x)

lemma addDaysNat_add (x : Date) (a b : ℕ) :
    addDaysNat x (a + b) = addDaysNat (addDaysNat x a) b := by
  induction a generalizing x with
  | zero => rw [Nat.zero_add]; rfl
  | succ n ih =>
    rw [show n + 1 + b = n + b + 1 by omega]
    simp only [addDaysNat]
    exact ih (succDay x)

lemma dateLe_addDaysNat (x : Date) (n : ℕ) : dateLe x (addDaysNat x n) = true := by
  induction n generalizing x with
  | zero => exact dateLe_refl x
  | succ k ih =>
    simp only [addDaysNat]
    exact dateLe_trans (dateLe_succDay x) (ih (succDay x))

lemma addDaysNat_mono (x : Date) {a b : ℕ} (h : a ≤ b) :
    dateLe (addDaysNat x a) (addDaysNat x b) = true := by
  rw [show b = a + (b - a) by omega, addDaysNat_add]
  exact dateLe_addDaysNat _ _

lemma addDays_natCast (x : Date) (n : ℕ) : addDays x (n : ℤ) = addDaysNat x n := rfl

lemma addDays_one (x : Date) : addDays x 1 = succDay x := rfl

lemma addDaysNat_succ_right (x : Date) (n : ℕ) :
    addDaysNat x (n + 1) = succDay (addDaysNat x n) := by
  rw [addDaysNat_add]
  rfl

lemma monthStart_succ (m : ℤ) :
    monthStart (m + 1) = monthStart m + monthLen m := by
  cases m with
  | ofNat n =>
    have h : (Int.ofNat n) + 1 = Int.ofNat (n + 1) := rfl
    rw [h]
    simp [monthStart, monthStartN]
  | negSucc k =>
    cases k with
    | zero =>
      have h : (Int.negSucc 0) + 1 = Int.ofNat 0 := rfl
      rw [h]
      simp [monthStart, monthStartN, monthStartNegN]
    | succ j =>
      have h : (Int.negSucc (j + 1)) + 1 = Int.negSucc j := rfl
      rw [h]
      have h2 : (-(j + 2 : ℤ)) = Int.negSucc (j + 1) := by
        rw [Int.negSucc_eq]
        push_cast
        ring
      simp [monthStart, monthStartNegN, h2]

lemma monthStart_mono {a b : ℤ} (h : a ≤ b) : monthStart a ≤ monthStart b := by
  have step : ∀ n : ℤ, a ≤ n → monthStart a ≤ monthStart n →
      monthStart a ≤ monthStart (n + 1) := by
    intro n _ ih
    rw [monthStart_succ]
    have := monthLen_pos n
    omega
  exact Int.le_induction (P := fun n => monthStart a ≤ monthStart n)
    (le_refl _) step b h

lemma dateLt_of_dateLe_of_ne {a b : Date} (h : dateLe a b = true) (hne : a ≠ b) :
    dateLt a b = true := by
  rw [dateLe_iff] at h
  rw [dateLt_iff]
  have hc : ¬(a.m = b.m ∧ a.d = b.d) := by
    intro hc
    exact hne (by cases a; cases b; simp_all)
  omega

lemma dateLt_of_dateLt_of_dateLe {a b c : Date} (h1 : dateLt a b = true)
    (h2 : dateLe b c = true) : dateLt a c = true := by
  rw [dateLt_iff] at *
  rw [dateLe_iff] at h2
  omega

lemma validDate_succDay (x : Date) : validDate (succDay x) := by
  unfold succDay
  split
  · simpa [validDate] using (by assumption : x.d + 1 < monthLen x.m)
  · simpa [validDate] using monthLen_pos (x.m + 1)

lemma toDay_succDay {x : Date} (h : validDate x) : toDay (succDay x) = toDay x + 1 := by
  unfold validDate at h
  unfold succDay
  split
  · simp [toDay]
    ring
  · rename_i hlt
    simp only [toDay]
    rw [monthStart_succ]
    omega

lemma toDay_le_of_dateLe {a b : Date} (ha : validDate a) (h : dateLe a b = true) :
    toDay a ≤ toDay b := by
  rw [dateLe_iff] at h
  unfold validDate at ha
  rcases h with h | ⟨h1, h2⟩
  · have e1 := monthStart_succ a.m
    have e2 := monthStart_mono (show a.m + 1 ≤ b.m by omega)
    unfold toDay
    omega
  · unfold toDay
    rw [h1]
    omega

lemma toDay_lt_of_dateLt {a b : Date} (ha : validDate a) (h : dateLt a b = true) :
    toDay a < toDay b := by
  rw [dateLt_iff] at h
  unfold validDate at ha
  rcases h with h | ⟨h1, h2⟩
  · have e1 := monthStart_succ a.m
    have e2 := monthStart_mono (show a.m + 1 ≤ b.m by omega)
    unfold toDay
    omega
  · unfold toDay
    rw [h1]
    omega

lemma succDay_le_of_lt {a b : Date} (ha : validDate a) (hb : validDate b)
    (h : dateLt a b = true) : dateLe (succDay a) b = true := by
  rw [dateLt_iff] at h
  unfold validDate at ha hb
  unfold succDay
  split
  · rw [dateLe_iff]
    simp only
    omega
  · rename_i hlen
    rw [dateLe_iff]
    simp only
    rcases h with h | ⟨h1, h2⟩
    · omega
    · exfalso
      have : monthLen a.m = monthLen b.m := by rw [h1]
      omega

/-! Counting helpers: the `SELECT COUNT(DISTINCT ...)` pattern as a set
cardinality, and its monotonicity in the row filter. -/

lemma list_toFinset_map (l : List User) (f : User → ℕ) :
    (l.map f).toFinset = l.toFinset.image f := by
  ext a
  simp

lemma dedup_map_filter_length_eq (l : List User) (p : User → Bool) :
    (((l.filter p).map (fun u => u.user_id)).dedup).length =
      ((l.toFinset.filter (fun u => p u = true)).image (fun u => u.user_id)).card := by
  rw [← List.card_toFinset, list_toFinset_map, List.toFinset_filter]

lemma dedup_map_filter_length_mono (l : List User) {p q : User → Bool}
    (h : ∀ u, p u = true → q u = true) :
    (((l.filter p).map (fun u => u.user_id)).dedup).length ≤
      (((l.filter q).map (fun u => u.user_id)).dedup).length := by
  rw [← List.card_toFinset, ← List.card_toFinset]
  apply Finset.card_le_card
  intro a ha
  simp only [List.mem_toFinset, List.mem_map, List.mem_filter] at ha ⊢
  obtain ⟨u, ⟨hu, hp⟩, rfl⟩ := ha
  exact ⟨u, ⟨hu, h u hp⟩, rfl⟩

/-! Loop lemmas for the three time-series loops. -/

lemma tsDayDatesLoop_mem (toD : Date) :
    ∀ fuel cur x, x ∈ tsDayDatesLoop toD cur fuel →
      dateLe cur x = true ∧ dateLe x toD = true := by
  intro fuel
  induction fuel with
  | zero => intro cur x h; simp [tsDayDatesLoop] at h
  | succ n ih =>
    intro cur x h
    simp only [tsDayDatesLoop] at h
    split at h
    · rename_i hg
      rcases List.mem_cons.mp h with rfl | hmem
      · exact ⟨dateLe_refl x, hg⟩
      · have h2 := ih (addDays cur 1) x hmem
        rw [addDays_one] at h2
        exact ⟨dateLe_trans (dateLe_succDay cur) h2.1, h2.2⟩
    · simp at h

lemma tsDayDatesLoop_head (toD cur : Date) (fuel : ℕ) :
    ∀ y ∈ (tsDayDatesLoop toD cur fuel).head?, y = cur := by
  cases fuel with
  | zero => simp [tsDayDatesLoop]
  | succ n =>
    simp only [tsDayDatesLoop]
    split
    · simp
    · simp

lemma tsDayDatesLoop_chain (toD : Date) :
    ∀ fuel cur, List.Chain' (fun a b => b = succDay a) (tsDayDatesLoop toD cur fuel) := by
  intro fuel
  induction fuel with
  | zero => intro cur; simp [tsDayDatesLoop]
  | succ n ih =>
    intro cur
    simp only [tsDayDatesLoop]
    split
    · rw [List.chain'_cons']
      refine ⟨?_, ih (addDays cur 1)⟩
      intro y hy
      have hc := tsDayDatesLoop_head toD (addDays cur 1) n y hy
      rw [hc, addDays_one]
    · simp

lemma tsDayDatesLoop_pairwise (toD : Date) :
    ∀ fuel cur, List.Pairwise (fun a b => dateLt a b = true) (tsDayDatesLoop toD cur fuel) := by
  intro fuel
  induction fuel with
  | zero => intro cur; simp [tsDayDatesLoop]
  | succ n ih =>
    intro cur
    simp only [tsDayDatesLoop]
    split
    · refine List.Pairwise.cons ?_ (ih (addDays cur 1))
      intro y hy
      have h2 := (tsDayDatesLoop_mem toD n (addDays cur 1) y hy).1
      rw [addDays_one] at h2
      exact dateLt_of_dateLt_of_dateLe (dateLt_succDay cur) h2
    · simp

lemma tsDayDatesLoop_complete (toD : Date) :
    ∀ fuel cur x, validDate cur → validDate x → dateLe cur x = true →
      dateLe x toD = true → (toDay x - toDay cur).toNat < fuel →
      x ∈ tsDayDatesLoop toD cur fuel := by
  intro fuel
  induction fuel with
  | zero => intro cur x _ _ _ _ hf; omega
  | succ n ih =>
    intro cur x hvc hvx hcx hxt hf
    simp only [tsDayDatesLoop]
    rw [if_pos (dateLe_trans hcx hxt)]
    by_cases he : cur = x
    · subst he
      exact List.mem_cons_self cur _
    · have hlt := dateLt_of_dateLe_of_ne hcx he
      have h1 := succDay_le_of_lt hvc hvx hlt
      have h2 := toDay_succDay hvc
      have h3 := toDay_lt_of_dateLt hvc hlt
      apply List.mem_cons_of_mem
      rw [addDays_one]
      exact ih (succDay cur) x (validDate_succDay cur) hvx h1 hxt (by omega)

lemma tsWeekWindowsLoop_mem (toD : Date) :
    ∀ fuel cur w, w ∈ tsWeekWindowsLoop toD cur fuel →
      w.2 = dateMin (addDays w.1 6) toD ∧ dateLe w.2 toD = true := by
  intro fuel
  induction fuel with
  | zero => intro cur w h; simp [tsWeekWindowsLoop] at h
  | succ n ih =>
    intro cur w h
    simp only [tsWeekWindowsLoop] at h
    split at h
    · rcases List.mem_cons.mp h with rfl | hmem
      · exact ⟨rfl, dateMin_le_right _ _⟩
      · exact ih _ w hmem
    · simp at h

lemma tsWeekWindows_head {fromD toD : Date} (h : dateLe fromD toD = true) :
    (tsWeekWindows fromD toD).head? = some (fromD, dateMin (addDays fromD 6) toD) := by
  unfold tsWeekWindows tsFuel
  simp only [tsWeekWindowsLoop]
  rw [if_pos h]
  rfl

lemma tsMonthWindowsLoop_mem (toD : Date) :
    ∀ fuel cur w, w ∈ tsMonthWindowsLoop toD cur fuel →
      w.2 = (if dateLt toD (monthEndOf w.1) = true then toD else monthEndOf w.1) ∧
        dateLe w.2 toD = true := by
  intro fuel
  induction fuel with
  | zero => intro cur w h; simp [tsMonthWindowsLoop] at h
  | succ n ih =>
    intro cur w h
    simp only [tsMonthWindowsLoop] at h
    split at h
    · rcases List.mem_cons.mp h with rfl | hmem
      · refine ⟨rfl, ?_⟩
        by_cases hc : dateLt toD (monthEndOf cur) = true
        · simp only [hc, if_true]
          exact dateLe_refl toD
        · simp only [hc, if_false]
          exact dateLe_of_not_dateLt (by simpa using hc)
      · exact ih _ w hmem
    · simp at h

lemma tsMonthWindowsLoop_head (toD cur : Date) (fuel : ℕ) :
    ∀ w ∈ (tsMonthWindowsLoop toD cur fuel).head?, w.1 = cur := by
  cases fuel with
  | zero => simp [tsMonthWindowsLoop]
  | succ n =>
    simp only [tsMonthWindowsLoop]
    split
    · simp
    · simp

lemma tsMonthWindowsLoop_chain (toD : Date) :
    ∀ fuel cur, List.Chain' (fun a b => b.1 = addMonths a.1 1)
      (tsMonthWindowsLoop toD cur fuel) := by
  intro fuel
  induction fuel with
  | zero => intro cur; simp [tsMonthWindowsLoop]
  | succ n ih =>
    intro cur
    simp only [tsMonthWindowsLoop]
    split
    · rw [List.chain'_cons']
      refine ⟨?_, ih (addMonths cur 1)⟩
      intro y hy
      exact tsMonthWindowsLoop_head toD (addMonths cur 1) n y hy
    · simp

lemma monthFloor_le (x : Date) : dateLe ⟨x.m, 0⟩ x = true := by
  rw [dateLe_iff]
  simp

lemma tsMonthWindows_head {fromD toD : Date} (h : dateLe fromD toD = true) :
    (tsMonthWindows fromD toD).head? = some (⟨fromD.m, 0⟩,
      if dateLt toD (monthEndOf ⟨fromD.m, 0⟩) = true then toD
      else monthEndOf ⟨fromD.m, 0⟩) := by
  unfold tsMonthWindows monthFuel
  simp only [tsMonthWindowsLoop]
  rw [if_pos (dateLe_trans (monthFloor_le fromD) h)]
  rfl

/-! Monotonicity helpers for the `last_activity` window predicates. -/

lemma lastActivityIn_mono_hi {u : User} {lo te te' : Date} (h : dateLe te te' = true)
    (hla : lastActivityIn u lo te = true) : lastActivityIn u lo te' = true := by
  unfold lastActivityIn at *
  cases hu : u.last_activity with
  | none => rw [hu] at hla; simp at hla
  | some la =>
    rw [hu] at hla
    have hla' : inRange la lo te = true := hla
    show inRange la lo te' = true
    unfold inRange at *
    rw [Bool.and_eq_true] at hla' ⊢
    exact ⟨hla'.1, dateLe_trans hla'.2 h⟩

lemma lastActivityIn_mono_lo {u : User} {lo lo' te : Date} (h : dateLe lo' lo = true)
    (hla : lastActivityIn u lo te = true) : lastActivityIn u lo' te = true := by
  unfold lastActivityIn at *
  cases hu : u.last_activity with
  | none => rw [hu] at hla; simp at hla
  | some la =>
    rw [hu] at hla
    have hla' : inRange la lo te = true := hla
    show inRange la lo' te = true
    unfold inRange at *
    rw [Bool.and_eq_true] at hla' ⊢
    exact ⟨dateLe_trans h hla'.1, hla'.2⟩

lemma rollingReturned_mono_te {db : DB} {cs ce ts te te' : Date}
    (h : dateLe te te' = true) :
    rollingReturned db cs ce ts te ≤ rollingReturned db cs ce ts te' :=
  dedup_map_filter_length_mono db.users fun u hu => by
    rw [Bool.and_eq_true] at hu ⊢
    exact ⟨hu.1, lastActivityIn_mono_hi h hu.2⟩

/-! Calendar helpers for the month-granularity windows of the builder. -/

lemma addDays_neg_one (x : Date) : addDays x (-1) = predDay x := rfl

lemma addMonths_day0 {cs : Date} (hd : cs.d = 0) (k : ℤ) :
    addMonths cs k = ⟨cs.m + k, 0⟩ := by
  unfold addMonths
  rw [hd]
  simp

lemma predDay_month_first (m : ℤ) : predDay ⟨m, 0⟩ = ⟨m - 1, monthLen (m - 1) - 1⟩ := by
  unfold predDay
  simp

lemma monthCohortEnd_eq {cs : Date} (hd : cs.d = 0) :
    addDays (addMonths cs 1) (-1) = ⟨cs.m, monthLen cs.m - 1⟩ := by
  rw [addMonths_day0 hd 1, addDays_neg_one, predDay_month_first]
  have h : cs.m + 1 - 1 = cs.m := by ring
  rw [h]

lemma monthWindowEnd_eq {cs : Date} (hd : cs.d = 0) (k : ℤ) :
    addDays (addMonths (addMonths cs k) 1) (-1) =
      ⟨cs.m + k, monthLen (cs.m + k) - 1⟩ := by
  rw [addMonths_day0 hd k,
    addMonths_day0 (show (⟨cs.m + k, 0⟩ : Date).d = 0 from rfl) 1,
    addDays_neg_one, predDay_month_first]
  have h : cs.m + k + 1 - 1 = cs.m + k := by ring
  rw [h]

lemma succDay_month_last (m : ℤ) : succDay ⟨m, monthLen m - 1⟩ = ⟨m + 1, 0⟩ := by
  have h := monthLen_pos m
  simp only [succDay]
  rw [if_neg (by omega)]

/-! Structural facts about the cohort-series builder. -/

lemma dayCohortRecord_eq_some {db : DB} {rt : String} {period : ℕ} {nowD : Date}
    {i : ℕ} {rec : CohortRecord} (h : dayCohortRecord db rt period nowD i = some rec) :
    0 < rec.registered ∧
      rec.retention_percent = retentionPercent rec.registered rec.returned := by
  simp only [dayCohortRecord] at h
  split at h
  · exact absurd h (by simp)
  · rename_i hz
    rw [Option.some.injEq] at h
    subst h
    exact ⟨Nat.pos_of_ne_zero hz, rfl⟩

lemma weekCohortRecord_eq_some {db : DB} {rt : String} {period : ℕ} {nowD : Date}
    {i : ℕ} {rec : CohortRecord} (h : weekCohortRecord db rt period nowD i = some rec) :
    0 < rec.registered ∧
      rec.retention_percent = retentionPercent rec.registered rec.returned := by
  simp only [weekCohortRecord] at h
  split at h
  · exact absurd h (by simp)
  · rename_i hz
    rw [Option.some.injEq] at h
    subst h
    exact ⟨Nat.pos_of_ne_zero hz, rfl⟩

lemma monthCohortRecord_eq_some {db : DB} {rt : String} {period : ℕ} {nowD : Date}
    {i : ℕ} {rec : CohortRecord} (h : monthCohortRecord db rt period nowD i = some rec) :
    0 < rec.registered ∧
      rec.retention_percent = retentionPercent rec.registered rec.returned := by
  simp only [monthCohortRecord] at h
  split at h
  · exact absurd h (by simp)
  · rename_i hz
    rw [Option.some.injEq] at h
    subst h
    exact ⟨Nat.pos_of_ne_zero hz, rfl⟩

lemma mem_flexibleCohorts {db : DB} {rt gran : String} {period : ℕ} {nowD : Date}
    {rec : CohortRecord} (h : rec ∈ flexibleCohorts db rt gran period nowD) :
    0 < rec.registered ∧
      rec.retention_percent = retentionPercent rec.registered rec.returned := by
  unfold flexibleCohorts at h
  split_ifs at h
  · rcases List.mem_filterMap.mp h with ⟨i, -, hi⟩
    exact dayCohortRecord_eq_some hi
  · rcases List.mem_filterMap.mp h with ⟨i, -, hi⟩
    exact weekCohortRecord_eq_some hi
  · rcases List.mem_filterMap.mp h with ⟨i, -, hi⟩
    exact monthCohortRecord_eq_some hi
  · simp at h

lemma retentionPercent_ten_four : retentionPercent 10 4 = 40 := by
  have h : Int.fdiv 400 1 = 400 := by decide
  norm_num [retentionPercent, pyRound1, roundHalfEven, ratFloor, h]

lemma scenario_cohorts_eq :
    flexibleCohorts scenarioDB "classic" "day" 7 ⟨0, 7⟩ =
      [⟨"2024-01-01", "2024-01-08", 10, 4, 40⟩] := by
  have hmap : (flexibleCohorts scenarioDB "classic" "day" 7 ⟨0, 7⟩).map
      (fun r => (r.cohort_label, r.target_label, r.registered, r.returned)) =
      [("2024-01-01", "2024-01-08", 10, 4)] := by decide
  rcases hl : flexibleCohorts scenarioDB "classic" "day" 7 ⟨0, 7⟩ with - | ⟨a, t⟩
  · rw [hl] at hmap
    simp at hmap
  · rw [hl] at hmap
    rw [List.map_cons] at hmap
    injection hmap with h1 h2
    have ht : t = [] := by
      rcases t with - | ⟨b, t'⟩
      · rfl
      · simp at h2
    subst ht
    have hpa : a.retention_percent = retentionPercent a.registered a.returned :=
      (mem_flexibleCohorts (by rw [hl]; exact List.mem_cons_self a _)).2
    simp only [Prod.mk.injEq] at h1
    obtain ⟨e1, e2, e3, e4⟩ := h1
    obtain ⟨l1, l2, reg, ret, pc⟩ := a
    simp only at e1 e2 e3 e4 hpa
    subst e1; subst e2; subst e3; subst e4
    rw [hpa, retentionPercent_ten_four]

/-- C1: functional retention's returned count equals the cardinality of the
union (deduplicated by user id) of the three sets of cohort members who
watered, added a plant, or asked a question in the target window; hence it
is at least the count of each single constituent query and at most the sum
of the three. -/
theorem functional_retention_union_bounds :
    ∀ db cs ce ts te,
      functionalReturned db cs ce ts te =
        ((wateredQuery db cs ce ts te).toFinset ∪
          (addedPlantQuery db cs ce ts te).toFinset ∪
          (askedQuestionQuery db cs ce ts te).toFinset).card ∧
      (wateredQuery db cs ce ts te).length ≤ functionalReturned db cs ce ts te ∧
      (addedPlantQuery db cs ce ts te).length ≤ functionalReturned db cs ce ts te ∧
      (askedQuestionQuery db cs ce ts te).length ≤ functionalReturned db cs ce ts te ∧
      functionalReturned db cs ce ts te ≤
        (wateredQuery db cs ce ts te).length + (addedPlantQuery db cs ce ts te).length +
          (askedQuestionQuery db cs ce ts te).length := by
  intro db cs ce ts te
  have ew : ((wateredQuery db cs ce ts te).toFinset).card =
      (wateredQuery db cs ce ts te).length :=
    List.toFinset_card_of_nodup (List.nodup_dedup _)
  have ea : ((addedPlantQuery db cs ce ts te).toFinset).card =
      (addedPlantQuery db cs ce ts te).length :=
    List.toFinset_card_of_nodup (List.nodup_dedup _)
  have eq3 : ((askedQuestionQuery db cs ce ts te).toFinset).card =
      (askedQuestionQuery db cs ce ts te).length :=
    List.toFinset_card_of_nodup (List.nodup_dedup _)
  have hu : functionalReturned db cs ce ts te =
      ((wateredQuery db cs ce ts te).toFinset ∪
        (addedPlantQuery db cs ce ts te).toFinset ∪
        (askedQuestionQuery db cs ce ts te).toFinset).card := by
    unfold functionalReturned
    rw [List.toFinset_append, List.toFinset_append, Finset.union_assoc]
  refine ⟨hu, ?_, ?_, ?_, ?_⟩
  · rw [hu, ← ew]
    exact Finset.card_le_card (Finset.subset_union_left.trans Finset.subset_union_left)
  · rw [hu, ← ea]
    exact Finset.card_le_card (Finset.subset_union_right.trans Finset.subset_union_left)
  · rw [hu, ← eq3]
    exact Finset.card_le_card Finset.subset_union_right
  · rw [hu, ← ew, ← ea, ← eq3]
    have h1 := Finset.card_union_le
      ((wateredQuery db cs ce ts te).toFinset ∪ (addedPlantQuery db cs ce ts te).toFinset)
      (askedQuestionQuery db cs ce ts te).toFinset
    have h2 := Finset.card_union_le (wateredQuery db cs ce ts te).toFinset
      (addedPlantQuery db cs ce ts te).toFinset
    omega

/-- C2: rolling retention counts exactly the cohort members whose
`last_activity` lies in the cumulative span from the day after `cohort_end`
through the target-window end, and the returned count is monotonically
non-decreasing in the period, both in general (growing span) and for the
specific day, week and month target windows computed by the series
builder. -/
theorem rolling_retention_cumulative_monotone :
    (∀ db cs ce ts te, rollingReturned db cs ce ts te =
      ((db.users.toFinset.filter (fun u =>
          (inCohort u cs ce && lastActivityIn u (addDays ce 1) te) = true)).image
        (fun u => u.user_id)).card) ∧
    (∀ db cs ce ts te te', dateLe te te' = true →
      rollingReturned db cs ce ts te ≤ rollingReturned db cs ce ts te') ∧
    (∀ db (cd : Date) (N M : ℕ), N ≤ M →
      rollingReturned db cd cd (addDays cd (N : ℤ)) (addDays cd (N : ℤ)) ≤
        rollingReturned db cd cd (addDays cd (M : ℤ)) (addDays cd (M : ℤ))) ∧
    (∀ db (cs : Date) (N M : ℕ), N ≤ M →
      rollingReturned db cs (addDays cs 6) (addDays cs (7 * (N : ℤ)))
          (addDays (addDays cs (7 * (N : ℤ))) 6) ≤
        rollingReturned db cs (addDays cs 6) (addDays cs (7 * (M : ℤ)))
          (addDays (addDays cs (7 * (M : ℤ))) 6)) ∧
    (∀ db (cs : Date) (N M : ℕ), cs.d = 0 → N ≤ M →
      rollingReturned db cs (addDays (addMonths cs 1) (-1)) (addMonths cs (N : ℤ))
          (addDays (addMonths (addMonths cs (N : ℤ)) 1) (-1)) ≤
        rollingReturned db cs (addDays (addMonths cs 1) (-1)) (addMonths cs (M : ℤ))
          (addDays (addMonths (addMonths cs (M : ℤ)) 1) (-1))) := by
  refine ⟨?_, ?_, ?_, ?_, ?_⟩
  · intro db cs ce ts te
    exact dedup_map_filter_length_eq _ _
  · intro db cs ce ts te te' h
    exact rollingReturned_mono_te h
  · intro db cd N M h
    have hte : dateLe (addDays cd (N : ℤ)) (addDays cd (M : ℤ)) = true := by
      rw [addDays_natCast, addDays_natCast]
      exact addDaysNat_mono cd h
    have e : rollingReturned db cd cd (addDays cd (M : ℤ)) (addDays cd (M : ℤ)) =
        rollingReturned db cd cd (addDays cd (N : ℤ)) (addDays cd (M : ℤ)) := rfl
    rw [e]
    exact rollingReturned_mono_te hte
  · intro db cs N M h
    have e6 : ∀ y : Date, addDays y 6 = addDaysNat y 6 := fun _ => rfl
    have hte : dateLe (addDays (addDays cs (7 * (N : ℤ))) 6)
        (addDays (addDays cs (7 * (M : ℤ))) 6) = true := by
      have eN : (7 : ℤ) * (N : ℤ) = ((7 * N : ℕ) : ℤ) := by push_cast; ring
      have eM : (7 : ℤ) * (M : ℤ) = ((7 * M : ℕ) : ℤ) := by push_cast; ring
      rw [eN, eM, addDays_natCast, addDays_natCast, e6, e6,
        ← addDaysNat_add, ← addDaysNat_add]
      exact addDaysNat_mono cs (by omega)
    have e : rollingReturned db cs (addDays cs 6) (addDays cs (7 * (M : ℤ)))
        (addDays (addDays cs (7 * (M : ℤ))) 6) =
        rollingReturned db cs (addDays cs 6) (addDays cs (7 * (N : ℤ)))
          (addDays (addDays cs (7 * (M : ℤ))) 6) := rfl
    rw [e]
    exact rollingReturned_mono_te hte
  · intro db cs N M hd h
    have hte : dateLe (addDays (addMonths (addMonths cs (N : ℤ)) 1) (-1))
        (addDays (addMonths (addMonths cs (M : ℤ)) 1) (-1)) = true := by
      by_cases hnm : N = M
      · subst hnm
        exact dateLe_refl _
      · rw [monthWindowEnd_eq hd, monthWindowEnd_eq hd, dateLe_iff]
        left
        simp only
        omega
    have e : rollingReturned db cs (addDays (addMonths cs 1) (-1)) (addMonths cs (M : ℤ))
        (addDays (addMonths (addMonths cs (M : ℤ)) 1) (-1)) =
        rollingReturned db cs (addDays (addMonths cs 1) (-1)) (addMonths cs (N : ℤ))
          (addDays (addMonths (addMonths cs (M : ℤ)) 1) (-1)) := rfl
    rw [e]
    exact rollingReturned_mono_te hte

/-- Witness for C2: concrete instantiation of the monotonicity parts on the
scenario log, with the hypotheses discharged by evaluation. -/
theorem rolling_retention_cumulative_monotone_witness :
    dateLe ⟨0, 0⟩ ⟨0, 9⟩ = true ∧
    rollingReturned scenarioDB ⟨0, 0⟩ ⟨0, 0⟩ ⟨0, 1⟩ ⟨0, 0⟩ ≤
      rollingReturned scenarioDB ⟨0, 0⟩ ⟨0, 0⟩ ⟨0, 1⟩ ⟨0, 9⟩ ∧
    rollingReturned scenarioDB ⟨0, 0⟩ ⟨0, 0⟩ (addDays ⟨0, 0⟩ ((3 : ℕ) : ℤ))
        (addDays ⟨0, 0⟩ ((3 : ℕ) : ℤ)) ≤
      rollingReturned scenarioDB ⟨0, 0⟩ ⟨0, 0⟩ (addDays ⟨0, 0⟩ ((9 : ℕ) : ℤ))
        (addDays ⟨0, 0⟩ ((9 : ℕ) : ℤ)) :=
  ⟨by decide,
   rolling_retention_cumulative_monotone.2.1 scenarioDB ⟨0, 0⟩ ⟨0, 0⟩ ⟨0, 1⟩ ⟨0, 0⟩ ⟨0, 9⟩
     (by decide),
   rolling_retention_cumulative_monotone.2.2.1 scenarioDB ⟨0, 0⟩ 3 9 (by omega)⟩

/-- C3: classic retention counts exactly the cohort members whose
`last_activity` falls in the target window, and on the scenario cohort (ten
users registered on day D, four with `last_activity` on day D+7) the
day-granularity classic series with period 7 reports cohort_size 10,
returned 4 and retention 40.0 percent. -/
theorem classic_retention_spec_and_scenario :
    (∀ db cs ce ts te, classicReturned db cs ce ts te =
      ((db.users.toFinset.filter (fun u =>
          (inCohort u cs ce && lastActivityIn u ts te) = true)).image
        (fun u => u.user_id)).card) ∧
    get_retention_flexible_stats scenarioDB "classic" "day" 7 ⟨0, 7⟩ =
      { retention_type := "classic", granularity := "day", period := 7,
        cohorts := [⟨"2024-01-01", "2024-01-08", 10, 4, 40⟩] } := by
  constructor
  · intro db cs ce ts te
    exact dedup_map_filter_length_eq _ _
  · unfold get_retention_flexible_stats
    rw [scenario_cohorts_eq]

/-- C4: for every retention type, granularity and period, the series
builder never emits a record for a zero-sized cohort: every emitted record
has a positive `registered` count. -/
theorem builder_never_emits_empty_cohorts
    (db : DB) (retention_type granularity : String) (period : ℕ) (nowD : Date)
    (rec : CohortRecord)
    (_hrt : retention_type ∈ ["classic", "functional", "rolling"])
    (h : rec ∈ (get_retention_flexible_stats db retention_type granularity
      period nowD).cohorts) :
    0 < rec.registered :=
  (mem_flexibleCohorts h).1

/-- Witness for C4: the scenario record is emitted and has positive size. -/
theorem builder_never_emits_empty_cohorts_witness :
    0 < (⟨"2024-01-01", "2024-01-08", 10, 4, 40⟩ : CohortRecord).registered := by
  apply builder_never_emits_empty_cohorts scenarioDB "classic" "day" 7 ⟨0, 7⟩
    ⟨"2024-01-01", "2024-01-08", 10, 4, 40⟩ (by simp)
  show _ ∈ flexibleCohorts scenarioDB "classic" "day" 7 ⟨0, 7⟩
  rw [scenario_cohorts_eq]
  exact List.mem_cons_self _ _

/-- C5: every emitted record's `retention_percent` is
`round(returned / cohort_size * 100, 1)` for positive cohorts and 0 for an
empty cohort (division by zero is defined, not an error); in particular a
cohort of 7 with 3 returners rounds to 42.9. -/
theorem retention_percent_formula :
    (∀ db rt gran period nowD rec,
      rec ∈ (get_retention_flexible_stats db rt gran period nowD).cohorts →
        rec.retention_percent = retentionPercent rec.registered rec.returned) ∧
    (∀ cs r : ℕ, 0 < cs →
      retentionPercent cs r = pyRound1 ((r : ℚ) / (cs : ℚ) * 100)) ∧
    (∀ r : ℕ, retentionPercent 0 r = 0) ∧
    retentionPercent 7 3 = 429 / 10 := by
  refine ⟨?_, ?_, ?_, ?_⟩
  · intro db rt gran period nowD rec h
    exact (mem_flexibleCohorts h).2
  · intro cs r h
    simp [retentionPercent, h]
  · intro r
    simp [retentionPercent]
  · have h : Int.fdiv 3000 7 = 428 := by decide
    norm_num [retentionPercent, pyRound1, roundHalfEven, ratFloor, h]

/-- Witness for C5: evaluated on the emitted scenario record and on a
positive cohort size. -/
theorem retention_percent_formula_witness :
    (⟨"2024-01-01", "2024-01-08", 10, 4, 40⟩ : CohortRecord).retention_percent =
      retentionPercent 10 4 ∧
    retentionPercent 5 1 = pyRound1 ((1 : ℚ) / (5 : ℚ) * 100) := by
  constructor
  · apply retention_percent_formula.1 scenarioDB "classic" "day" 7 ⟨0, 7⟩
    show _ ∈ flexibleCohorts scenarioDB "classic" "day" 7 ⟨0, 7⟩
    rw [scenario_cohorts_eq]
    exact List.mem_cons_self _ _
  · exact retention_percent_formula.2.1 5 1 (by omega)

/-- C6: when `date_from > date_to` the request is rejected before any
event-log query (the result is the same error for every database), but the
endpoint's own `HTTPException(400)` is swallowed by the trailing
`except Exception` handler and re-raised as a 500 server fault, not the
client-input fault the range check intended. -/
theorem timeseries_invalid_range_is_500 :
    ∀ (db : DB) (granularity : String) (fromD toD : Date),
      dateLt toD fromD = true →
        get_timeseries_stats db granularity fromD toD =
          Except.error ⟨500, pyStr (PyExc.httpExc 400
            "date_from must be before date_to")⟩ := by
  intro db g f t h
  unfold get_timeseries_stats timeseriesBody
  rw [if_pos h]

/-- Witness for C6: the concrete reversed range 2024-01-02 .. 2024-01-01. -/
theorem timeseries_invalid_range_is_500_witness :
    dateLt ⟨0, 0⟩ ⟨0, 1⟩ = true ∧
    get_timeseries_stats emptyDB "day" ⟨0, 1⟩ ⟨0, 0⟩ =
      Except.error ⟨500, pyStr (PyExc.httpExc 400
        "date_from must be before date_to")⟩ :=
  ⟨by decide, timeseries_invalid_range_is_500 emptyDB "day" ⟨0, 1⟩ ⟨0, 0⟩ (by decide)⟩

/-- C7 counterexample: for `date_from` = 2024-01-03 (a Wednesday) the first
week bucket of the time series starts at 2024-01-03 itself, not at the
preceding Monday 2024-01-01 computed by the Monday-alignment formula the
retention builder uses. -/
theorem week_first_bucket_not_monday_aligned :
    (tsWeekWindows ⟨0, 2⟩ ⟨0, 9⟩).head? = some (⟨0, 2⟩, ⟨0, 8⟩) ∧
    addDays ⟨0, 2⟩ (-(weekday ⟨0, 2⟩ : ℤ)) = ⟨0, 0⟩ ∧
    (⟨0, 2⟩ : Date) ≠ (⟨0, 0⟩ : Date) := by
  decide

/-- C7 amended: the week time series emits its first bucket starting exactly
at `date_from` (no Monday re-alignment), and every bucket's end, including
the final one, is `min(start + 6 days, date_to)`, hence clamped to
`date_to`. -/
theorem week_buckets_start_at_date_from_and_clamp :
    (∀ db fromD toD, tsWeekPoints db fromD toD =
      (tsWeekWindows fromD toD).map (mkWeekPoint db)) ∧
    (∀ fromD toD : Date, dateLe fromD toD = true →
      (tsWeekWindows fromD toD).head? = some (fromD, dateMin (addDays fromD 6) toD)) ∧
    (∀ fromD toD : Date, ∀ w ∈ tsWeekWindows fromD toD,
      w.2 = dateMin (addDays w.1 6) toD ∧ dateLe w.2 toD = true) := by
  refine ⟨fun _ _ _ => rfl, ?_, ?_⟩
  · intro fromD toD h
    exact tsWeekWindows_head h
  · intro fromD toD w hw
    exact tsWeekWindowsLoop_mem toD _ fromD w hw

/-- Witness for C7 amended: evaluated on the range 2024-01-03 .. 2024-01-09. -/
theorem week_buckets_start_at_date_from_and_clamp_witness :
    (tsWeekWindows ⟨0, 2⟩ ⟨0, 9⟩).head? =
      some (⟨0, 2⟩, dateMin (addDays ⟨0, 2⟩ 6) ⟨0, 9⟩) ∧
    ((⟨0, 9⟩, ⟨0, 9⟩) : Date × Date).2 =
      dateMin (addDays ((⟨0, 9⟩, ⟨0, 9⟩) : Date × Date).1 6) ⟨0, 9⟩ ∧
    dateLe ((⟨0, 9⟩, ⟨0, 9⟩) : Date × Date).2 ⟨0, 9⟩ = true :=
  ⟨week_buckets_start_at_date_from_and_clamp.2.1 ⟨0, 2⟩ ⟨0, 9⟩ (by decide),
   week_buckets_start_at_date_from_and_clamp.2.2 ⟨0, 2⟩ ⟨0, 9⟩ (⟨0, 9⟩, ⟨0, 9⟩)
     (by decide)⟩

/-- C8 counterexample: for `date_from` = 2024-01-15 the first month bucket
starts at 2024-01-01, strictly before `date_from`, so not every emitted
bucket lies within `[date_from, date_to]`. -/
theorem month_first_bucket_before_date_from :
    (tsMonthWindows ⟨0, 14⟩ ⟨1, 9⟩).head? = some (⟨0, 0⟩, ⟨0, 30⟩) ∧
    dateLt ⟨0, 0⟩ ⟨0, 14⟩ = true := by
  decide

/-- C8 amended: the month time series starts at the first day of
`date_from`'s month (which can precede `date_from`), advances exactly one
calendar month per bucket, and each bucket's end is the nominal month end
overwritten by `date_to` when it overshoots, hence always clamped to
`date_to`. -/
theorem month_buckets_walk_months_and_clamp :
    (∀ db fromD toD, tsMonthPoints db fromD toD =
      (tsMonthWindows fromD toD).map (mkMonthPoint db)) ∧
    (∀ fromD toD : Date, dateLe fromD toD = true →
      (tsMonthWindows fromD toD).head? = some (⟨fromD.m, 0⟩,
        if dateLt toD (monthEndOf ⟨fromD.m, 0⟩) = true then toD
        else monthEndOf ⟨fromD.m, 0⟩)) ∧
    (∀ fromD toD : Date, List.Chain' (fun a b => b.1 = addMonths a.1 1)
      (tsMonthWindows fromD toD)) ∧
    (∀ fromD toD : Date, ∀ w ∈ tsMonthWindows fromD toD,
      w.2 = (if dateLt toD (monthEndOf w.1) = true then toD else monthEndOf w.1) ∧
        dateLe w.2 toD = true) := by
  refine ⟨fun _ _ _ => rfl, ?_, ?_, ?_⟩
  · intro fromD toD h
    exact tsMonthWindows_head h
  · intro fromD toD
    exact tsMonthWindowsLoop_chain toD _ _
  · intro fromD toD w hw
    exact tsMonthWindowsLoop_mem toD _ _ w hw

/-- Witness for C8 amended: evaluated on the range 2024-01-15 .. 2024-02-10. -/
theorem month_buckets_walk_months_and_clamp_witness :
    (tsMonthWindows ⟨0, 14⟩ ⟨1, 9⟩).head? = some (⟨0, 0⟩,
      if dateLt ⟨1, 9⟩ (monthEndOf ⟨0, 0⟩) = true then ⟨1, 9⟩
      else monthEndOf ⟨0, 0⟩) ∧
    ((⟨1, 0⟩, ⟨1, 9⟩) : Date × Date).2 =
      (if dateLt ⟨1, 9⟩ (monthEndOf ((⟨1, 0⟩, ⟨1, 9⟩) : Date × Date).1) = true
        then ⟨1, 9⟩ else monthEndOf ((⟨1, 0⟩, ⟨1, 9⟩) : Date × Date).1) ∧
    dateLe ((⟨1, 0⟩, ⟨1, 9⟩) : Date × Date).2 ⟨1, 9⟩ = true :=
  ⟨month_buckets_walk_months_and_clamp.2.1 ⟨0, 14⟩ ⟨1, 9⟩ (by decide),
   month_buckets_walk_months_and_clamp.2.2.2 ⟨0, 14⟩ ⟨1, 9⟩ (⟨1, 0⟩, ⟨1, 9⟩)
     (by decide)⟩

/-- C9: the day time series emits exactly one bucket per calendar day of
`[date_from, date_to]`, in chronological order — the emitted dates form a
consecutive-day chain that is strictly increasing, stays inside the range,
starts at `date_from`, and contains every valid day of the range — and a
day with no matching events is still emitted with all counts zero, as on
the concrete empty-log range 2024-01-01 .. 2024-01-03. -/
theorem day_timeseries_dense_buckets :
    (∀ db fromD toD, tsDayPoints db fromD toD =
      (tsDayDates fromD toD).map (mkDayPoint db)) ∧
    (∀ fromD toD : Date, List.Chain' (fun a b => b = succDay a)
      (tsDayDates fromD toD)) ∧
    (∀ fromD toD : Date, List.Pairwise (fun a b => dateLt a b = true)
      (tsDayDates fromD toD)) ∧
    (∀ fromD toD : Date, ∀ x ∈ tsDayDates fromD toD,
      dateLe fromD x = true ∧ dateLe x toD = true) ∧
    (∀ fromD toD x : Date, validDate fromD → validDate x →
      dateLe fromD x = true → dateLe x toD = true → x ∈ tsDayDates fromD toD) ∧
    (∀ fromD toD : Date, dateLe fromD toD = true →
      (tsDayDates fromD toD).head? = some fromD) ∧
    tsDayPoints emptyDB ⟨0, 0⟩ ⟨0, 2⟩ =
      [⟨"2024-01-01", "01.01", 0, 0, 0, 0, 0, 0, 0⟩,
       ⟨"2024-01-02", "02.01", 0, 0, 0, 0, 0, 0, 0⟩,
       ⟨"2024-01-03", "03.01", 0, 0, 0, 0, 0, 0, 0⟩] := by
  refine ⟨fun _ _ _ => rfl, ?_, ?_, ?_, ?_, ?_, by decide⟩
  · intro fromD toD
    exact tsDayDatesLoop_chain toD _ fromD
  · intro fromD toD
    exact tsDayDatesLoop_pairwise toD _ fromD
  · intro fromD toD x hx
    exact tsDayDatesLoop_mem toD _ fromD x hx
  · intro fromD toD x hvf hvx hfx hxt
    apply tsDayDatesLoop_complete toD (tsFuel fromD toD) fromD x hvf hvx hfx hxt
    have hle := toDay_le_of_dateLe hvx hxt
    unfold tsFuel
    omega
  · intro fromD toD h
    unfold tsDayDates tsFuel
    simp only [tsDayDatesLoop]
    rw [if_pos h]
    rfl

/-- Witness for C9: on the range 2024-01-01 .. 2024-01-03, the middle day
2024-01-02 is emitted. -/
theorem day_timeseries_dense_buckets_witness :
    (⟨0, 1⟩ : Date) ∈ tsDayDates ⟨0, 0⟩ ⟨0, 2⟩ ∧
    (tsDayDates ⟨0, 0⟩ ⟨0, 2⟩).head? = some ⟨0, 0⟩ :=
  ⟨day_timeseries_dense_buckets.2.2.2.2.1 ⟨0, 0⟩ ⟨0, 2⟩ ⟨0, 1⟩
     (by unfold validDate; decide) (by unfold validDate; decide)
     (by decide) (by decide),
   day_timeseries_dense_buckets.2.2.2.2.2.1 ⟨0, 0⟩ ⟨0, 2⟩ (by decide)⟩

/-- C10: for every cohort and target window shaped as the series builder
shapes them with period at least 1, rolling retention counts at least as
many returners as classic retention, because classic's target window is
contained in rolling's cumulative window; stated generally and then for the
day, week and month windows of the builder. -/
theorem rolling_ge_classic :
    (∀ db cs ce ts te, dateLe (addDays ce 1) ts = true →
      classicReturned db cs ce ts te ≤ rollingReturned db cs ce ts te) ∧
    (∀ db (cd : Date) (p : ℕ), 1 ≤ p →
      classicReturned db cd cd (addDays cd (p : ℤ)) (addDays cd (p : ℤ)) ≤
        rollingReturned db cd cd (addDays cd (p : ℤ)) (addDays cd (p : ℤ))) ∧
    (∀ db (cs : Date) (p : ℕ), 1 ≤ p →
      classicReturned db cs (addDays cs 6) (addDays cs (7 * (p : ℤ)))
          (addDays (addDays cs (7 * (p : ℤ))) 6) ≤
        rollingReturned db cs (addDays cs 6) (addDays cs (7 * (p : ℤ)))
          (addDays (addDays cs (7 * (p : ℤ))) 6)) ∧
    (∀ db (cs : Date) (p : ℕ), cs.d = 0 → 1 ≤ p →
      classicReturned db cs (addDays (addMonths cs 1) (-1)) (addMonths cs (p : ℤ))
          (addDays (addMonths (addMonths cs (p : ℤ)) 1) (-1)) ≤
        rollingReturned db cs (addDays (addMonths cs 1) (-1)) (addMonths cs (p : ℤ))
          (addDays (addMonths (addMonths cs (p : ℤ)) 1) (-1))) := by
  have general : ∀ db cs ce ts te, dateLe (addDays ce 1) ts = true →
      classicReturned db cs ce ts te ≤ rollingReturned db cs ce ts te := by
    intro db cs ce ts te h
    exact dedup_map_filter_length_mono db.users fun u hu => by
      rw [Bool.and_eq_true] at hu ⊢
      exact ⟨hu.1, lastActivityIn_mono_lo h hu.2⟩
  refine ⟨general, ?_, ?_, ?_⟩
  · intro db cd p hp
    apply general
    have e1 : addDays cd 1 = addDaysNat cd 1 := rfl
    rw [e1, addDays_natCast]
    exact addDaysNat_mono cd hp
  · intro db cs p hp
    apply general
    have e6 : addDays cs 6 = addDaysNat cs 6 := rfl
    have e1 : ∀ y : Date, addDays y 1 = addDaysNat y 1 := fun _ => rfl
    have ep : (7 : ℤ) * (p : ℤ) = ((7 * p : ℕ) : ℤ) := by push_cast; ring
    rw [e6, e1, ep, addDays_natCast, ← addDaysNat_add]
    exact addDaysNat_mono cs (by omega)
  · intro db cs p hd hp
    apply general
    rw [monthCohortEnd_eq hd, addDays_one, succDay_month_last, addMonths_day0 hd,
      dateLe_iff]
    simp only
    omega

/-- Witness for C10: the general containment and the three builder window
shapes, evaluated on the scenario log with period 7 (day), 1 (week) and a
month-start cohort with period 2. -/
theorem rolling_ge_classic_witness :
    classicReturned scenarioDB ⟨0, 0⟩ ⟨0, 0⟩ ⟨0, 7⟩ ⟨0, 7⟩ ≤
      rollingReturned scenarioDB ⟨0, 0⟩ ⟨0, 0⟩ ⟨0, 7⟩ ⟨0, 7⟩ ∧
    classicReturned scenarioDB ⟨0, 0⟩ ⟨0, 0⟩ (addDays ⟨0, 0⟩ ((7 : ℕ) : ℤ))
        (addDays ⟨0, 0⟩ ((7 : ℕ) : ℤ)) ≤
      rollingReturned scenarioDB ⟨0, 0⟩ ⟨0, 0⟩ (addDays ⟨0, 0⟩ ((7 : ℕ) : ℤ))
        (addDays ⟨0, 0⟩ ((7 : ℕ) : ℤ)) ∧
    classicReturned scenarioDB ⟨0, 0⟩ (addDays (addMonths ⟨0, 0⟩ 1) (-1))
        (addMonths ⟨0, 0⟩ ((2 : ℕ) : ℤ))
        (addDays (addMonths (addMonths ⟨0, 0⟩ ((2 : ℕ) : ℤ)) 1) (-1)) ≤
      rollingReturned scenarioDB ⟨0, 0⟩ (addDays (addMonths ⟨0, 0⟩ 1) (-1))
        (addMonths ⟨0, 0⟩ ((2 : ℕ) : ℤ))
        (addDays (addMonths (addMonths ⟨0, 0⟩ ((2 : ℕ) : ℤ)) 1) (-1)) :=
  ⟨rolling_ge_classic.1 scenarioDB ⟨0, 0⟩ ⟨0, 0⟩ ⟨0, 7⟩ ⟨0, 7⟩ (by decide),
   rolling_ge_classic.2.1 scenarioDB ⟨0, 0⟩ 7 (by omega),
   rolling_ge_classic.2.2.2 scenarioDB ⟨0, 0⟩ 2 (by decide) (by omega)⟩
